import Mathlib

/-!
# Verification of the mock-gcs in-memory storage double

Shallow embedding of the repository's three components:

* `MockStorage` (src/MockStorage.ts) — registry of buckets, keyed by name;
* `MockBucket` (src/MockBucket.ts) — a bucket: a JS object `files` mapping
  object name to a `MockFile` instance, plus `put`, `file`, `getFiles`;
* `MockFile` (src/MockFile.ts) — a file instance with `contents`, `metadata`,
  and one fault-injection queue per mockable operation, plus the seven
  mockable operations, `copy`, `createWriteStream`.

JavaScript objects used as dictionaries (`bucket.files`, `storage.buckets`,
metadata objects) are modelled as insertion-ordered association lists with
JS assignment semantics: assigning to an existing key overwrites in place,
assigning to a fresh key appends.  `MockFile` instances are heap cells
(`Sys.heap`, addressed by `Nat` ids) because instance identity is
observable: `bucket.files` stores references, and a handle can alias or
not alias the current member.  Metadata values are restricted to integers
and one level of nested string-keyed integer maps; the merge logic of the
source is value-agnostic, so this restriction loses none of it.  Promises
always settle immediately in the source (no real I/O), so each async
method is a state transformer returning `Sys × Except GError α`; a thrown
error leaves the mutations made before the throw in place, exactly as in
JS, which is why the state is returned also on the error path.
-/

namespace MockGcs

/-- A JS value stored in a metadata object: an integer or a nested
string-keyed map of integers (the custom-metadata sub-mapping). -/
inductive JVal where
  | jnum (n : Int)
  | jobj (m : List (String × Int))
deriving DecidableEq, Repr

/-- A JS metadata object: insertion-ordered association list. -/
abbrev JObj := List (String × JVal)

/-- JS property assignment `o[k] = v`: overwrite in place if the key is
present, append otherwise. -/
def jsSet {α : Type} (o : List (String × α)) (k : String) (v : α) :
    List (String × α) :=
  if (o.lookup k).isSome then
    o.map fun p => if p.1 = k then (k, v) else p
  else o ++ [(k, v)]

/-- JS spread `{ ...a, ...b }`: assign every property of `b` onto `a`. -/
def jsSpread {α : Type} (a b : List (String × α)) : List (String × α) :=
  b.foldl (fun acc p => jsSet acc p.1 p.2) a

/-- JS `delete o[k]`. -/
def jsDelete {α : Type} (o : List (String × α)) (k : String) :
    List (String × α) :=
  o.filter fun p => p.1 ≠ k

/-- JS `s.startsWith(p)`: `p`'s characters are a prefix of `s`'s. -/
def jsStartsWith (s p : String) : Bool :=
  p.data.isPrefixOf s.data

/-- The enumerable properties of `metadata.metadata`: a nested object
spreads to its entries; an absent key or a number spreads to nothing. -/
def subMeta (o : JObj) : List (String × Int) :=
  match o.lookup "metadata" with
  | some (JVal.jobj m) => m
  | _ => []

/-- Errors thrown by the source: `mustBeExists`'s
`new Error('No such file: <bucket>/<name>')`, `copy`'s
`new Error('Invalid destination type')`, and the arbitrary error objects a
test enqueues via `mockErrorOnce` (identified by a tag so distinct error
objects stay distinct). -/
inductive GError where
  | notFound (bucket name : String)
  | invalidDestination
  | injected (tag : Nat)
deriving DecidableEq, Repr

instance {ε α : Type} [DecidableEq ε] [DecidableEq α] :
    DecidableEq (Except ε α) := fun x y =>
  match x, y with
  | .ok a, .ok b =>
    if h : a = b then isTrue (by rw [h]) else isFalse (by simp [h])
  | .ok _, .error _ => isFalse (by simp)
  | .error _, .ok _ => isFalse (by simp)
  | .error e, .error e' =>
    if h : e = e' then isTrue (by rw [h]) else isFalse (by simp [h])

/-- The seven mockable operations (keys of `mockQueues`). -/
inductive MockOp where
  | existsOp | deleteOp | downloadOp | getSignedUrlOp
  | saveOp | setMetadataOp | getMetadataOp
deriving DecidableEq, Repr

/-- The per-operation fault queues of one `MockFile` instance
(`MockableFileQueues`; every entry pushed by `mockErrorOnce` is an error
record, so the queues hold errors directly). -/
structure Queues where
  qExists : List GError
  qDelete : List GError
  qDownload : List GError
  qGetSignedUrl : List GError
  qSave : List GError
  qSetMetadata : List GError
  qGetMetadata : List GError
deriving DecidableEq, Repr

/-- All queues empty: the state set up by the `MockFile` constructor and
by `mockReset()`. -/
def Queues.empty : Queues := ⟨[], [], [], [], [], [], []⟩

/-- `mockQueues[method]` read. -/
def Queues.get (q : Queues) : MockOp → List GError
  | .existsOp => q.qExists
  | .deleteOp => q.qDelete
  | .downloadOp => q.qDownload
  | .getSignedUrlOp => q.qGetSignedUrl
  | .saveOp => q.qSave
  | .setMetadataOp => q.qSetMetadata
  | .getMetadataOp => q.qGetMetadata

/-- `mockQueues[method] = l` write. -/
def Queues.set (q : Queues) : MockOp → List GError → Queues
  | .existsOp, l => { q with qExists := l }
  | .deleteOp, l => { q with qDelete := l }
  | .downloadOp, l => { q with qDownload := l }
  | .getSignedUrlOp, l => { q with qGetSignedUrl := l }
  | .saveOp, l => { q with qSave := l }
  | .setMetadataOp, l => { q with qSetMetadata := l }
  | .getMetadataOp, l => { q with qGetMetadata := l }

/-- One `MockFile` instance (a heap cell).  `bucketName` is the
back-reference `this.bucket`, resolved by name through the registry. -/
structure FileObj where
  name : String
  bucketName : String
  contents : String
  metadata : JObj
  mockQueues : Queues
deriving DecidableEq, Repr

/-- The `MockFile` constructor: empty contents (`Buffer.alloc(0)`),
default metadata `{metadata: {}}`, all fault queues empty. -/
def FileObj.init (bucketName name : String) : FileObj :=
  { name := name
    bucketName := bucketName
    contents := ""
    metadata := [("metadata", JVal.jobj [])]
    mockQueues := Queues.empty }

/-- A bucket's `files` mapping: object name → heap id of the member
`MockFile` instance (insertion-ordered, JS object semantics). -/
abbrev FilesMap := List (String × Nat)

/-- Whole-system state: the heap of every `MockFile` instance ever
constructed (ids are heap indices; construction appends) and the registry
`storage.buckets`, each bucket reduced to its `files` mapping (its `name`
is its registry key). -/
structure Sys where
  heap : List FileObj
  buckets : List (String × FilesMap)
deriving DecidableEq, Repr

/-- Dereference a heap id.  Ids handed out by the model are always in
range; the default is never reached from API-constructed states. -/
def Sys.getFile (s : Sys) (fid : Nat) : FileObj :=
  s.heap.getD fid (FileObj.init "" "")

/-- Overwrite a heap cell. -/
def Sys.setFile (s : Sys) (fid : Nat) (f : FileObj) : Sys :=
  { s with heap := s.heap.set fid f }

/-- `bucket.files` of the bucket registered under `b`. -/
def Sys.bucketFiles (s : Sys) (b : String) : FilesMap :=
  (s.buckets.lookup b).getD []

/-- Replace `bucket.files` of the bucket registered under `b`. -/
def Sys.setBucketFiles (s : Sys) (b : String) (fm : FilesMap) : Sys :=
  { s with buckets := jsSet s.buckets b fm }

/-- `!!this.bucket.files[name]` — membership, the sole existence signal. -/
def Sys.member (s : Sys) (b n : String) : Bool :=
  ((s.bucketFiles b).lookup n).isSome

/-- `mockErrorOnce(method, error)`: push an error record onto the method's
queue (the guard on unknown methods is unreachable: the queue table always
has all seven keys). -/
def mockErrorOnce (s : Sys) (fid : Nat) (op : MockOp) (e : GError) : Sys :=
  let f := s.getFile fid
  s.setFile fid
    { f with mockQueues := f.mockQueues.set op (f.mockQueues.get op ++ [e]) }

/-- The fault-injection preamble shared by all seven operations:
`this.mockQueues.<op>.shift()`, returning the popped record (if any) and
the instance with the queue advanced. -/
def popMock (f : FileObj) (op : MockOp) : Option GError × FileObj :=
  match f.mockQueues.get op with
  | [] => (none, f)
  | e :: rest => (some e, { f with mockQueues := f.mockQueues.set op rest })

/-- `MockFile.exists()`: fault check, then `[!!this.bucket.files[this.name]]`. -/
def fileExists (s : Sys) (fid : Nat) : Sys × Except GError Bool :=
  let f := s.getFile fid
  let (mv, f1) := popMock f .existsOp
  let s1 := s.setFile fid f1
  match mv with
  | some e => (s1, .error e)
  | none => (s1, .ok (s1.member f.bucketName f.name))

/-- `MockFile.delete()`: fault check, `mustBeExists`, then
`delete this.bucket.files[this.name]`. -/
def fileDelete (s : Sys) (fid : Nat) : Sys × Except GError Unit :=
  let f := s.getFile fid
  let (mv, f1) := popMock f .deleteOp
  let s1 := s.setFile fid f1
  match mv with
  | some e => (s1, .error e)
  | none =>
    if s1.member f.bucketName f.name then
      (s1.setBucketFiles f.bucketName
        (jsDelete (s1.bucketFiles f.bucketName) f.name), .ok ())
    else (s1, .error (.notFound f.bucketName f.name))

/-- `MockFile.download()`: fault check, `mustBeExists`, then
`[this.contents]` (the optional destination-path write is external I/O and
carries no model state). -/
def fileDownload (s : Sys) (fid : Nat) : Sys × Except GError String :=
  let f := s.getFile fid
  let (mv, f1) := popMock f .downloadOp
  let s1 := s.setFile fid f1
  match mv with
  | some e => (s1, .error e)
  | none =>
    if s1.member f.bucketName f.name then (s1, .ok f1.contents)
    else (s1, .error (.notFound f.bucketName f.name))

/-- `MockFile.getMetadata()`: fault check, `mustBeExists`, then
`[this.metadata, {}]`. -/
def fileGetMetadata (s : Sys) (fid : Nat) : Sys × Except GError JObj :=
  let f := s.getFile fid
  let (mv, f1) := popMock f .getMetadataOp
  let s1 := s.setFile fid f1
  match mv with
  | some e => (s1, .error e)
  | none =>
    if s1.member f.bucketName f.name then (s1, .ok f1.metadata)
    else (s1, .error (.notFound f.bucketName f.name))

/-- `MockFile.getSignedUrl()`: fault check, `mustBeExists`, then the
deterministic mocked URL. -/
def fileGetSignedUrl (s : Sys) (fid : Nat) : Sys × Except GError String :=
  let f := s.getFile fid
  let (mv, f1) := popMock f .getSignedUrlOp
  let s1 := s.setFile fid f1
  match mv with
  | some e => (s1, .error e)
  | none =>
    if s1.member f.bucketName f.name then
      (s1, .ok ("https://storage.googleapis.com/" ++ f.bucketName ++ "/"
        ++ f.name ++ "?X-Goog-Algorithm=MOCKED"))
    else (s1, .error (.notFound f.bucketName f.name))

/-- The merged metadata computed by `MockFile.setMetadata`:
`customMetadata = { ...this.metadata.metadata, ...metadata.metadata }`,
then `{ ...this.metadata, ...metadata, metadata: customMetadata }`. -/
def mergeMetadata (old new : JObj) : JObj :=
  let customMetadata := jsSpread (subMeta old) (subMeta new)
  jsSet (jsSpread old new) "metadata" (JVal.jobj customMetadata)

/-- `MockFile.setMetadata(metadata)`: fault check, `mustBeExists`, merge
into `this.metadata`, return the merged result. -/
def fileSetMetadata (s : Sys) (fid : Nat) (metadata : JObj) :
    Sys × Except GError JObj :=
  let f := s.getFile fid
  let (mv, f1) := popMock f .setMetadataOp
  let s1 := s.setFile fid f1
  match mv with
  | some e => (s1, .error e)
  | none =>
    if s1.member f.bucketName f.name then
      let newMd := mergeMetadata f1.metadata metadata
      (s1.setFile fid { f1 with metadata := newMd }, .ok newMd)
    else (s1, .error (.notFound f.bucketName f.name))

/-- `markAsExists`: insert this instance into `bucket.files` unless some
instance is already the member under this name. -/
def markAsExists (s : Sys) (fid : Nat) : Sys :=
  let f := s.getFile fid
  if s.member f.bucketName f.name then s
  else s.setBucketFiles f.bucketName
    (jsSet (s.bucketFiles f.bucketName) f.name fid)

/-- `MockFile.save(data, options?)`: fault check, `markAsExists`, then
`if (options?.metadata) this.metadata = options.metadata` (full overwrite)
and `this.contents = data`.  A metadata object is always truthy in JS, so
`some md` always overwrites. -/
def fileSave (s : Sys) (fid : Nat) (data : String) (optMeta : Option JObj) :
    Sys × Except GError Unit :=
  let f := s.getFile fid
  let (mv, f1) := popMock f .saveOp
  let s1 := s.setFile fid f1
  match mv with
  | some e => (s1, .error e)
  | none =>
    let s2 := markAsExists s1 fid
    let f2 := match optMeta with
      | some md => { f1 with metadata := md }
      | none => f1
    (s2.setFile fid { f2 with contents := data }, .ok ())

/-- `MockFile.createWriteStream()`: `markAsExists` runs immediately; no
fault queue applies to this path. -/
def createWriteStream (s : Sys) (fid : Nat) : Sys :=
  markAsExists s fid

/-- The write stream's `finish` handler: the buffered bytes replace
`this.contents`. -/
def writeStreamFinish (s : Sys) (fid : Nat) (data : String) : Sys :=
  let f := s.getFile fid
  s.setFile fid { f with contents := data }

/-- `MockBucket.file(name, options?, forceExists = false)`:
`this.files[name] || new MockFile(this, name)`; stores the instance into
`files` only when `forceExists` is set. -/
def bucketFile (s : Sys) (b n : String) (forceExists : Bool) : Sys × Nat :=
  match (s.bucketFiles b).lookup n with
  | some fid =>
    if forceExists then
      (s.setBucketFiles b (jsSet (s.bucketFiles b) n fid), fid)
    else (s, fid)
  | none =>
    let fid := s.heap.length
    let s1 := { s with heap := s.heap ++ [FileObj.init b n] }
    if forceExists then
      (s1.setBucketFiles b (jsSet (s1.bucketFiles b) n fid), fid)
    else (s1, fid)

/-- `MockBucket.put(name, contents?, metadata?)`:
`this.files[name] = new MockFile(this, name)`, then
`if (contents) await save(contents)` (the empty string is falsy in JS, an
absent argument is `undefined`), then
`if (metadata) await setMetadata(metadata)`. -/
def bucketPut (s : Sys) (b n : String) (contents : Option String)
    (metadata : Option JObj) : Sys × Nat × Except GError Unit :=
  let fid := s.heap.length
  let s1 := { s with heap := s.heap ++ [FileObj.init b n] }
  let s2 := s1.setBucketFiles b (jsSet (s1.bucketFiles b) n fid)
  let (s3, r1) :=
    if contents.getD "" = "" then (s2, Except.ok ())
    else fileSave s2 fid (contents.getD "") none
  match r1 with
  | .error e => (s3, fid, .error e)
  | .ok _ =>
    match metadata with
    | none => (s3, fid, .ok ())
    | some md =>
      match fileSetMetadata s3 fid md with
      | (s4, .error e) => (s4, fid, .error e)
      | (s4, .ok _) => (s4, fid, .ok ())

/-- `MockBucket.getFiles(query?)`: `prefix = query?.prefix || ''`, filter
the entries of `files` by `name.startsWith(prefix)`, keep the instances
(here: their heap ids) in insertion order.  Always resolves. -/
def bucketGetFiles (s : Sys) (b : String) (query : Option String) :
    List Nat :=
  let pfx := query.getD ""
  ((s.bucketFiles b).filter fun e => jsStartsWith e.1 pfx).map fun e => e.2

/-- Modelled from the spec: `MockBucket.deleteFiles` is exercised by the
repository's bucket tests but its definition is not under src/.  Spec
§4.2 `deleteObjects(prefixFilter?)`: removes every member object whose
name starts with the filter (empty or absent filter ⇒ all members) from
the membership mapping; does not fail if zero objects match. -/
def bucketDeleteFiles (s : Sys) (b : String) (query : Option String) : Sys :=
  let pfx := query.getD ""
  s.setBucketFiles b
    ((s.bucketFiles b).filter fun e => !(jsStartsWith e.1 pfx))

/-- `MockStorage.bucket(name)`: create the bucket on first access
(`if (this.buckets[name] === undefined) this.buckets[name] = new
MockBucket(this, name)`), then return `this.buckets[name]` — in this
model the bucket handle is its registry name. -/
def storageBucket (s : Sys) (n : String) : Sys :=
  if (s.buckets.lookup n).isSome then s
  else { s with buckets := jsSet s.buckets n [] }

/-- How `MockFile.copy` classifies its `destination` argument: a plain
string, a bucket-like value (`'name' in d && 'file' in d`), a file-like
value (`'name' in d`), or anything else. -/
inductive CopyDest where
  | toName (n : String)
  | toBucket (b : String)
  | toFile (fid : Nat)
  | invalid
deriving DecidableEq, Repr

/-- The `(targetBucket, targetFileName)` pair `MockFile.copy` computes
from its destination argument (`none` when the
`throw new Error('Invalid destination type')` branch is taken). -/
def copyTarget (s : Sys) (fid : Nat) (destination : CopyDest) :
    Option (String × String) :=
  match destination with
  | .toName n => some ((s.getFile fid).bucketName, n)
  | .toBucket b => some (b, (s.getFile fid).name)
  | .toFile g => some ((s.getFile g).bucketName, (s.getFile g).name)
  | .invalid => none

/-- `MockFile.copy(destination, options?)`: classify the destination into
a (bucket, name) pair or throw `Invalid destination type`; then
`download()`, `getMetadata()`, shallow-merge `options?.metadata` over the
fetched metadata, `targetBucket.file(targetFileName)`, and
`save(contents, { metadata: newMetadata })`; return the new handle and
the merged metadata. -/
def fileCopy (s : Sys) (fid : Nat) (destination : CopyDest)
    (optMeta : Option JObj) : Sys × Except GError (Nat × JObj) :=
  match copyTarget s fid destination with
  | none => (s, .error .invalidDestination)
  | some (targetBucket, targetFileName) =>
    match fileDownload s fid with
    | (s1, .error e) => (s1, .error e)
    | (s1, .ok contents) =>
      match fileGetMetadata s1 fid with
      | (s2, .error e) => (s2, .error e)
      | (s2, .ok metadata) =>
        let newMetadata := jsSpread metadata (optMeta.getD [])
        let (s3, nfid) := bucketFile s2 targetBucket targetFileName false
        match fileSave s3 nfid contents (some newMetadata) with
        | (s4, .error e) => (s4, .error e)
        | (s4, .ok _) => (s4, .ok (nfid, newMetadata))

/-- Result of a mockable operation, erased to one sum type so that the
seven operations can be quantified over together. -/
inductive OpResult where
  | rBool (b : Bool)
  | rUnit
  | rStr (v : String)
  | rMeta (m : JObj)
deriving DecidableEq, Repr

/-- Dispatch one mockable operation by name.  `data` and `optMeta` feed
`save`, `md` feeds `setMetadata`; the other operations take no argument. -/
def callOp (s : Sys) (fid : Nat) (op : MockOp) (data : String)
    (optMeta : Option JObj) (md : JObj) : Sys × Except GError OpResult :=
  match op with
  | .existsOp => let (s1, r) := fileExists s fid; (s1, r.map .rBool)
  | .deleteOp => let (s1, r) := fileDelete s fid; (s1, r.map fun _ => .rUnit)
  | .downloadOp => let (s1, r) := fileDownload s fid; (s1, r.map .rStr)
  | .getSignedUrlOp =>
    let (s1, r) := fileGetSignedUrl s fid; (s1, r.map .rStr)
  | .saveOp =>
    let (s1, r) := fileSave s fid data optMeta; (s1, r.map fun _ => .rUnit)
  | .setMetadataOp =>
    let (s1, r) := fileSetMetadata s fid md; (s1, r.map .rMeta)
  | .getMetadataOp => let (s1, r) := fileGetMetadata s fid; (s1, r.map .rMeta)

/-! ## Concrete sample states used by witnesses and counterexamples -/

/-- The state of a fresh `new MockStorage()`. -/
def sysEmpty : Sys := { heap := [], buckets := [] }

/-- `storage.bucket('b')` on a fresh storage. -/
def sysB : Sys := storageBucket sysEmpty "b"

/-- `bucket.put('f.txt', 'hello')` on `sysB`: one member file, heap id 0. -/
def sysOne : Sys := (bucketPut sysB "b" "f.txt" (some "hello") none).1

/-- `sysOne` after `file.mockErrorOnce('download', err3)`. -/
def sysErr : Sys := mockErrorOnce sysOne 0 .downloadOp (.injected 3)

/-- Three members `test-1`, `test-2`, `nn-test-3` put in that order. -/
def sysThree : Sys :=
  (bucketPut (bucketPut (bucketPut sysB "b" "test-1" none none).1
    "b" "test-2" none none).1 "b" "nn-test-3" none none).1

/-- `sysOne` after `setMetadata({metadata: {a: 1}})`. -/
def sysMeta1 : Sys :=
  (fileSetMetadata sysOne 0 [("metadata", JVal.jobj [("a", 1)])]).1

/-- `sysMeta1` after `setMetadata({metadata: {b: 2}})`. -/
def sysMeta2 : Sys :=
  (fileSetMetadata sysMeta1 0 [("metadata", JVal.jobj [("b", 2)])]).1

/-! ## Basic lemmas about the heap, the queues and the maps -/

theorem List.set_getD_self {α : Type} (l : List α) (i : Nat) (d : α) :
    l.set i (l[i]?.getD d) = l := by
  induction l generalizing i with
  | nil => simp
  | cons a t ih =>
    cases i with
    | zero => simp
    | succ j => simpa using ih j

theorem Sys.setFile_getFile (s : Sys) (fid : Nat) :
    s.setFile fid (s.getFile fid) = s := by
  cases s
  simp [Sys.setFile, Sys.getFile, List.set_getD_self]

theorem Sys.getFile_setFile_self {s : Sys} {fid : Nat} (f : FileObj)
    (h : fid < s.heap.length) : (s.setFile fid f).getFile fid = f := by
  simp [Sys.setFile, Sys.getFile, List.getD, List.getElem?_set_eq_of_lt, h]

theorem Sys.getFile_setFile_ne {s : Sys} {fid g : Nat} (f : FileObj)
    (h : g ≠ fid) : (s.setFile fid f).getFile g = s.getFile g := by
  simp [Sys.setFile, Sys.getFile, List.getD, List.getElem?_set_ne,
    (Ne.symm h : fid ≠ g)]

theorem Sys.buckets_setFile (s : Sys) (fid : Nat) (f : FileObj) :
    (s.setFile fid f).buckets = s.buckets := rfl

theorem Sys.heap_setBucketFiles (s : Sys) (b : String) (fm : FilesMap) :
    (s.setBucketFiles b fm).heap = s.heap := rfl

theorem Queues.get_set_self (q : Queues) (op : MockOp) (l : List GError) :
    (q.set op l).get op = l := by
  cases op <;> rfl

theorem Queues.get_set_ne (q : Queues) {op op' : MockOp} (l : List GError)
    (h : op' ≠ op) : (q.set op l).get op' = q.get op' := by
  cases op <;> cases op' <;> simp_all [Queues.get, Queues.set]

theorem Queues.set_get_self (q : Queues) (op : MockOp) :
    q.set op (q.get op) = q := by
  cases op <;> rfl

theorem lookup_eq_none_of_not_mem {α : Type} {t : List (String × α)}
    {k : String} (h : k ∉ t.map Prod.fst) : t.lookup k = none := by
  induction t with
  | nil => rfl
  | cons a t ih =>
    obtain ⟨a1, a2⟩ := a
    simp only [List.map_cons, List.mem_cons] at h
    push_neg at h
    rw [List.lookup_cons, show (k == a1) = false by simp [h.1]]
    exact ih h.2

theorem lookup_map_overwrite {α : Type} {o : List (String × α)} {k : String}
    (v : α) (h : (o.lookup k).isSome) :
    (o.map fun p => if p.1 = k then (k, v) else p).lookup k = some v := by
  induction o with
  | nil => simp at h
  | cons a t ih =>
    obtain ⟨a1, a2⟩ := a
    rw [List.map_cons]
    by_cases hk : a1 = k
    · rw [show (if (a1, a2).1 = k then (k, v) else (a1, a2)) = (k, v) by
        simp [hk]]
      rw [List.lookup_cons, show (k == k) = true by simp]
    · rw [show (if (a1, a2).1 = k then (k, v) else (a1, a2)) = (a1, a2) by
        simp [hk]]
      have hk' : (k == a1) = false := by simp [Ne.symm hk]
      rw [List.lookup_cons, hk'] at h
      rw [List.lookup_cons, hk']
      exact ih h

theorem lookup_append_single {α : Type} {o : List (String × α)} {k : String}
    (v : α) (h : o.lookup k = none) :
    (o ++ [(k, v)]).lookup k = some v := by
  induction o with
  | nil => rw [List.nil_append, List.lookup_cons, show (k == k) = true by simp]
  | cons a t ih =>
    obtain ⟨a1, a2⟩ := a
    by_cases hk : k = a1
    · rw [List.lookup_cons, show (k == a1) = true by simp [hk]] at h
      simp at h
    · have hk' : (k == a1) = false := by simp [hk]
      rw [List.lookup_cons, hk'] at h
      rw [List.cons_append, List.lookup_cons, hk']
      exact ih h

theorem jsSet_lookup_self {α : Type} (o : List (String × α)) (k : String)
    (v : α) : (jsSet o k v).lookup k = some v := by
  unfold jsSet
  by_cases h : (o.lookup k).isSome
  · rw [if_pos h]
    exact lookup_map_overwrite v h
  · rw [if_neg h]
    exact lookup_append_single v (by
      cases hx : o.lookup k with
      | none => rfl
      | some w => rw [hx] at h; simp at h)

theorem lookup_map_overwrite_ne {α : Type} {o : List (String × α)}
    {k k' : String} (v : α) (h : k' ≠ k) :
    (o.map fun p => if p.1 = k then (k, v) else p).lookup k' = o.lookup k' := by
  induction o with
  | nil => rfl
  | cons a t ih =>
    obtain ⟨a1, a2⟩ := a
    rw [List.map_cons]
    by_cases hk : a1 = k
    · rw [show (if (a1, a2).1 = k then (k, v) else (a1, a2)) = (k, v) by
        simp [hk]]
      rw [List.lookup_cons, List.lookup_cons, hk,
        show (k' == k) = false by simp [h]]
      exact ih
    · rw [show (if (a1, a2).1 = k then (k, v) else (a1, a2)) = (a1, a2) by
        simp [hk]]
      rw [List.lookup_cons, List.lookup_cons]
      cases hx : (k' == a1) with
      | true => rfl
      | false => exact ih

theorem lookup_append_single_ne {α : Type} {o : List (String × α)}
    {k k' : String} (v : α) (h : k' ≠ k) :
    (o ++ [(k, v)]).lookup k' = o.lookup k' := by
  induction o with
  | nil =>
    rw [List.nil_append, List.lookup_cons, show (k' == k) = false by simp [h]]
  | cons a t ih =>
    obtain ⟨a1, a2⟩ := a
    rw [List.cons_append, List.lookup_cons, List.lookup_cons]
    cases hx : (k' == a1) with
    | true => rfl
    | false => exact ih

theorem jsSet_lookup_ne {α : Type} (o : List (String × α)) {k k' : String}
    (v : α) (h : k' ≠ k) : (jsSet o k v).lookup k' = o.lookup k' := by
  unfold jsSet
  split
  · exact lookup_map_overwrite_ne v h
  · exact lookup_append_single_ne v h

theorem jsSpread_lookup {α : Type} (a b : List (String × α)) (k : String)
    (hb : (b.map Prod.fst).Nodup) :
    (jsSpread a b).lookup k = (b.lookup k).or (a.lookup k) := by
  induction b generalizing a with
  | nil => simp [jsSpread]
  | cons p t ih =>
    obtain ⟨p1, p2⟩ := p
    simp only [List.map_cons, List.nodup_cons] at hb
    have step : jsSpread a ((p1, p2) :: t) = jsSpread (jsSet a p1 p2) t := rfl
    rw [step, ih _ hb.2]
    by_cases hk : k = p1
    · subst hk
      have ht : t.lookup k = none :=
        lookup_eq_none_of_not_mem (by simpa using hb.1)
      rw [ht, jsSet_lookup_self, List.lookup_cons,
        show (k == k) = true by simp]
      rfl
    · rw [jsSet_lookup_ne _ _ hk, List.lookup_cons,
        show (k == p1) = false by simp [hk]]

theorem Sys.bucketFiles_setBucketFiles_self (s : Sys) (b : String)
    (fm : FilesMap) : (s.setBucketFiles b fm).bucketFiles b = fm := by
  simp [Sys.setBucketFiles, Sys.bucketFiles, jsSet_lookup_self]

theorem Sys.bucketFiles_setBucketFiles_ne (s : Sys) {b b' : String}
    (fm : FilesMap) (h : b' ≠ b) :
    (s.setBucketFiles b fm).bucketFiles b' = s.bucketFiles b' := by
  simp [Sys.setBucketFiles, Sys.bucketFiles, jsSet_lookup_ne _ _ h]

theorem Sys.getFile_setBucketFiles (s : Sys) (b : String) (fm : FilesMap)
    (g : Nat) : (s.setBucketFiles b fm).getFile g = s.getFile g := rfl

theorem Sys.member_setFile (s : Sys) (fid : Nat) (f : FileObj) (b n : String) :
    (s.setFile fid f).member b n = s.member b n := rfl

theorem Queues.set_set (q : Queues) (op : MockOp) (l l' : List GError) :
    (q.set op l).set op l' = q.set op l' := by
  cases op <;> rfl

theorem Sys.setFile_setFile (s : Sys) (fid : Nat) (f f' : FileObj) :
    (s.setFile fid f).setFile fid f' = s.setFile fid f' := by
  simp [Sys.setFile, List.set_set]

theorem jsDelete_lookup_self {α : Type} (o : List (String × α)) (k : String) :
    (jsDelete o k).lookup k = none := by
  induction o with
  | nil => rfl
  | cons a t ih =>
    obtain ⟨a1, a2⟩ := a
    unfold jsDelete at ih ⊢
    by_cases hk : a1 = k
    · simpa [hk] using ih
    · rw [List.filter_cons_of_pos (by simpa using hk), List.lookup_cons,
        show (k == a1) = false by simp [Ne.symm hk]]
      exact ih

theorem jsDelete_lookup_ne {α : Type} (o : List (String × α)) {k k' : String}
    (h : k' ≠ k) : (jsDelete o k).lookup k' = o.lookup k' := by
  induction o with
  | nil => rfl
  | cons a t ih =>
    obtain ⟨a1, a2⟩ := a
    unfold jsDelete at ih ⊢
    by_cases hk : a1 = k
    · rw [List.filter_cons_of_neg (by simpa using hk), List.lookup_cons,
        show (k' == a1) = false by simp [hk ▸ h]]
      exact ih
    · rw [List.filter_cons_of_pos (by simpa using hk), List.lookup_cons,
        List.lookup_cons]
      cases hx : (k' == a1) with
      | true => rfl
      | false => exact ih

theorem lookup_filter_key {α : Type} (p : String → Bool)
    (o : List (String × α)) (k : String) :
    (o.filter fun e => p e.1).lookup k
      = if p k then o.lookup k else none := by
  induction o with
  | nil => simp
  | cons a t ih =>
    obtain ⟨a1, a2⟩ := a
    by_cases hp : p a1
    · rw [List.filter_cons_of_pos (by simpa using hp), List.lookup_cons,
        List.lookup_cons]
      cases hx : (k == a1) with
      | true =>
        have hk : k = a1 := by simpa using hx
        subst hk
        rw [if_pos hp]
      | false => rw [ih]
    · rw [List.filter_cons_of_neg (by simpa using hp), ih, List.lookup_cons]
      cases hx : (k == a1) with
      | true =>
        have hk : k = a1 := by simpa using hx
        subst hk
        simp [hp]
      | false => rfl

/-- JS `startsWith` with the empty search string is always true. -/
theorem jsStartsWith_empty (s : String) : jsStartsWith s "" = true := by
  simp [jsStartsWith]

/-- After `storage.bucket(n)` the registry always has an entry for `n`. -/
theorem storageBucket_lookup_isSome (s : Sys) (n : String) :
    ((storageBucket s n).buckets.lookup n).isSome = true := by
  by_cases h : (s.buckets.lookup n).isSome
  · rw [storageBucket, if_pos h]
    exact h
  · rw [storageBucket, if_neg h]
    simp [jsSet_lookup_self]

/-- Appending to the heap leaves existing cells readable unchanged. -/
theorem Sys.getFile_append_lt {s : Sys} {fid : Nat} (f : FileObj)
    (h : fid < s.heap.length) :
    (Sys.mk (s.heap ++ [f]) s.buckets).getFile fid = s.getFile fid := by
  simp [Sys.getFile, List.getD, List.getElem?_append, h]

theorem Queues.get_empty (op : MockOp) : Queues.empty.get op = [] := by
  cases op <;> rfl

/-- Allocating at the end of the heap and dereferencing the fresh id. -/
theorem Sys.getFile_alloc (s : Sys) (f : FileObj) :
    (Sys.mk (s.heap ++ [f]) s.buckets).getFile s.heap.length = f := by
  simp [Sys.getFile, List.getD, List.getElem?_concat_length]

theorem markAsExists_heap (s : Sys) (fid : Nat) :
    (markAsExists s fid).heap = s.heap := by
  simp only [markAsExists]
  split <;> rfl

theorem markAsExists_getFile (s : Sys) (fid g : Nat) :
    (markAsExists s fid).getFile g = s.getFile g := by
  simp only [markAsExists]
  split <;> rfl

theorem markAsExists_of_member {s : Sys} {fid : Nat}
    (h : s.member (s.getFile fid).bucketName (s.getFile fid).name = true) :
    markAsExists s fid = s := by
  simp only [markAsExists]
  rw [if_pos h]

theorem markAsExists_member_self (s : Sys) (fid : Nat) :
    (markAsExists s fid).member (s.getFile fid).bucketName
      (s.getFile fid).name = true := by
  simp only [markAsExists]
  by_cases h : s.member (s.getFile fid).bucketName (s.getFile fid).name = true
  · rw [if_pos h]
    exact h
  · rw [if_neg h]
    simp [Sys.member, Sys.bucketFiles_setBucketFiles_self, jsSet_lookup_self]

theorem popMock_nil {f : FileObj} {op : MockOp}
    (h : f.mockQueues.get op = []) : popMock f op = (none, f) := by
  simp [popMock, h]

theorem popMock_cons {f : FileObj} {op : MockOp} {e : GError}
    {rest : List GError} (h : f.mockQueues.get op = e :: rest) :
    popMock f op = (some e, { f with mockQueues := f.mockQueues.set op rest }) := by
  simp [popMock, h]

/-! ## Unfolding lemmas: each operation under an empty / non-empty queue -/

theorem fileExists_inject {s : Sys} {fid : Nat} {e : GError}
    {rest : List GError}
    (h : (s.getFile fid).mockQueues.get .existsOp = e :: rest) :
    fileExists s fid =
      (s.setFile fid { s.getFile fid with
        mockQueues := (s.getFile fid).mockQueues.set .existsOp rest },
       .error e) := by
  simp [fileExists, popMock_cons h]

theorem fileExists_empty {s : Sys} {fid : Nat}
    (h : (s.getFile fid).mockQueues.get .existsOp = []) :
    fileExists s fid =
      (s, .ok (s.member (s.getFile fid).bucketName (s.getFile fid).name)) := by
  simp [fileExists, popMock_nil h, Sys.setFile_getFile]

theorem fileDelete_inject {s : Sys} {fid : Nat} {e : GError}
    {rest : List GError}
    (h : (s.getFile fid).mockQueues.get .deleteOp = e :: rest) :
    fileDelete s fid =
      (s.setFile fid { s.getFile fid with
        mockQueues := (s.getFile fid).mockQueues.set .deleteOp rest },
       .error e) := by
  simp [fileDelete, popMock_cons h]

theorem fileDelete_empty {s : Sys} {fid : Nat}
    (h : (s.getFile fid).mockQueues.get .deleteOp = []) :
    fileDelete s fid =
      if s.member (s.getFile fid).bucketName (s.getFile fid).name then
        (s.setBucketFiles (s.getFile fid).bucketName
          (jsDelete (s.bucketFiles (s.getFile fid).bucketName)
            (s.getFile fid).name), .ok ())
      else
        (s, .error (.notFound (s.getFile fid).bucketName
          (s.getFile fid).name)) := by
  simp [fileDelete, popMock_nil h, Sys.setFile_getFile]

theorem fileDownload_inject {s : Sys} {fid : Nat} {e : GError}
    {rest : List GError}
    (h : (s.getFile fid).mockQueues.get .downloadOp = e :: rest) :
    fileDownload s fid =
      (s.setFile fid { s.getFile fid with
        mockQueues := (s.getFile fid).mockQueues.set .downloadOp rest },
       .error e) := by
  simp [fileDownload, popMock_cons h]

theorem fileDownload_empty {s : Sys} {fid : Nat}
    (h : (s.getFile fid).mockQueues.get .downloadOp = []) :
    fileDownload s fid =
      if s.member (s.getFile fid).bucketName (s.getFile fid).name then
        (s, .ok (s.getFile fid).contents)
      else
        (s, .error (.notFound (s.getFile fid).bucketName
          (s.getFile fid).name)) := by
  simp [fileDownload, popMock_nil h, Sys.setFile_getFile]

theorem fileGetMetadata_inject {s : Sys} {fid : Nat} {e : GError}
    {rest : List GError}
    (h : (s.getFile fid).mockQueues.get .getMetadataOp = e :: rest) :
    fileGetMetadata s fid =
      (s.setFile fid { s.getFile fid with
        mockQueues := (s.getFile fid).mockQueues.set .getMetadataOp rest },
       .error e) := by
  simp [fileGetMetadata, popMock_cons h]

theorem fileGetMetadata_empty {s : Sys} {fid : Nat}
    (h : (s.getFile fid).mockQueues.get .getMetadataOp = []) :
    fileGetMetadata s fid =
      if s.member (s.getFile fid).bucketName (s.getFile fid).name then
        (s, .ok (s.getFile fid).metadata)
      else
        (s, .error (.notFound (s.getFile fid).bucketName
          (s.getFile fid).name)) := by
  simp [fileGetMetadata, popMock_nil h, Sys.setFile_getFile]

theorem fileGetSignedUrl_inject {s : Sys} {fid : Nat} {e : GError}
    {rest : List GError}
    (h : (s.getFile fid).mockQueues.get .getSignedUrlOp = e :: rest) :
    fileGetSignedUrl s fid =
      (s.setFile fid { s.getFile fid with
        mockQueues := (s.getFile fid).mockQueues.set .getSignedUrlOp rest },
       .error e) := by
  simp [fileGetSignedUrl, popMock_cons h]

theorem fileGetSignedUrl_empty {s : Sys} {fid : Nat}
    (h : (s.getFile fid).mockQueues.get .getSignedUrlOp = []) :
    fileGetSignedUrl s fid =
      if s.member (s.getFile fid).bucketName (s.getFile fid).name then
        (s, .ok ("https://storage.googleapis.com/"
          ++ (s.getFile fid).bucketName ++ "/" ++ (s.getFile fid).name
          ++ "?X-Goog-Algorithm=MOCKED"))
      else
        (s, .error (.notFound (s.getFile fid).bucketName
          (s.getFile fid).name)) := by
  simp [fileGetSignedUrl, popMock_nil h, Sys.setFile_getFile]

theorem fileSetMetadata_inject {s : Sys} {fid : Nat} {e : GError}
    {rest : List GError} {md : JObj}
    (h : (s.getFile fid).mockQueues.get .setMetadataOp = e :: rest) :
    fileSetMetadata s fid md =
      (s.setFile fid { s.getFile fid with
        mockQueues := (s.getFile fid).mockQueues.set .setMetadataOp rest },
       .error e) := by
  simp [fileSetMetadata, popMock_cons h]

theorem fileSetMetadata_empty {s : Sys} {fid : Nat} {md : JObj}
    (h : (s.getFile fid).mockQueues.get .setMetadataOp = []) :
    fileSetMetadata s fid md =
      if s.member (s.getFile fid).bucketName (s.getFile fid).name then
        (s.setFile fid { s.getFile fid with
           metadata := mergeMetadata (s.getFile fid).metadata md },
         .ok (mergeMetadata (s.getFile fid).metadata md))
      else
        (s, .error (.notFound (s.getFile fid).bucketName
          (s.getFile fid).name)) := by
  simp [fileSetMetadata, popMock_nil h, Sys.setFile_getFile]

theorem fileSave_inject {s : Sys} {fid : Nat} {e : GError}
    {rest : List GError} {data : String} {optMeta : Option JObj}
    (h : (s.getFile fid).mockQueues.get .saveOp = e :: rest) :
    fileSave s fid data optMeta =
      (s.setFile fid { s.getFile fid with
        mockQueues := (s.getFile fid).mockQueues.set .saveOp rest },
       .error e) := by
  simp [fileSave, popMock_cons h]

theorem fileSave_empty {s : Sys} {fid : Nat} {data : String}
    {optMeta : Option JObj}
    (h : (s.getFile fid).mockQueues.get .saveOp = []) :
    fileSave s fid data optMeta =
      ((markAsExists s fid).setFile fid
        { s.getFile fid with
          metadata := optMeta.getD (s.getFile fid).metadata
          contents := data },
       .ok ()) := by
  cases optMeta <;> simp [fileSave, popMock_nil h, Sys.setFile_getFile]

/-- Any mockable operation whose queue head is an error record fails with
exactly that record's error and advances only that queue. -/
theorem callOp_inject {s : Sys} {fid : Nat} {op : MockOp} {e : GError}
    {rest : List GError} {data : String} {optMeta : Option JObj} {md : JObj}
    (h : (s.getFile fid).mockQueues.get op = e :: rest) :
    callOp s fid op data optMeta md =
      (s.setFile fid { s.getFile fid with
        mockQueues := (s.getFile fid).mockQueues.set op rest },
       .error e) := by
  cases op with
  | existsOp => simp [callOp, fileExists_inject h, Except.map]
  | deleteOp => simp [callOp, fileDelete_inject h, Except.map]
  | downloadOp => simp [callOp, fileDownload_inject h, Except.map]
  | getSignedUrlOp => simp [callOp, fileGetSignedUrl_inject h, Except.map]
  | saveOp => simp [callOp, fileSave_inject h, Except.map]
  | setMetadataOp => simp [callOp, fileSetMetadata_inject h, Except.map]
  | getMetadataOp => simp [callOp, fileGetMetadata_inject h, Except.map]

theorem Sys.setFile_oob {s : Sys} {fid : Nat} (f : FileObj)
    (h : s.heap.length ≤ fid) : s.setFile fid f = s := by
  simp [Sys.setFile, List.set_eq_of_length_le h]

/-- With an empty queue, the only possible failure of a mockable
operation is `mustBeExists`'s `NotFound`, and it leaves the state
untouched. -/
theorem callOp_empty_error {s : Sys} {fid : Nat} {op : MockOp}
    {data : String} {optMeta : Option JObj} {md : JObj} {s' : Sys}
    {e : GError}
    (hq : (s.getFile fid).mockQueues.get op = [])
    (h : callOp s fid op data optMeta md = (s', .error e)) :
    s' = s
    ∧ e = .notFound (s.getFile fid).bucketName (s.getFile fid).name
    ∧ s.member (s.getFile fid).bucketName (s.getFile fid).name = false := by
  cases op with
  | existsOp =>
    rw [callOp, fileExists_empty hq] at h
    simp [Except.map] at h
  | deleteOp =>
    rw [callOp, fileDelete_empty hq] at h
    by_cases hm : s.member (s.getFile fid).bucketName (s.getFile fid).name
      = true
    · rw [if_pos hm] at h
      simp [Except.map] at h
    · rw [if_neg hm] at h
      simp only [Except.map, Prod.mk.injEq] at h
      obtain ⟨h1, h2⟩ := h
      exact ⟨h1.symm, by simpa using h2.symm, by simpa using hm⟩
  | downloadOp =>
    rw [callOp, fileDownload_empty hq] at h
    by_cases hm : s.member (s.getFile fid).bucketName (s.getFile fid).name
      = true
    · rw [if_pos hm] at h
      simp [Except.map] at h
    · rw [if_neg hm] at h
      simp only [Except.map, Prod.mk.injEq] at h
      obtain ⟨h1, h2⟩ := h
      exact ⟨h1.symm, by simpa using h2.symm, by simpa using hm⟩
  | getSignedUrlOp =>
    rw [callOp, fileGetSignedUrl_empty hq] at h
    by_cases hm : s.member (s.getFile fid).bucketName (s.getFile fid).name
      = true
    · rw [if_pos hm] at h
      simp [Except.map] at h
    · rw [if_neg hm] at h
      simp only [Except.map, Prod.mk.injEq] at h
      obtain ⟨h1, h2⟩ := h
      exact ⟨h1.symm, by simpa using h2.symm, by simpa using hm⟩
  | saveOp =>
    rw [callOp, fileSave_empty hq] at h
    simp [Except.map] at h
  | setMetadataOp =>
    rw [callOp, fileSetMetadata_empty hq] at h
    by_cases hm : s.member (s.getFile fid).bucketName (s.getFile fid).name
      = true
    · rw [if_pos hm] at h
      simp [Except.map] at h
    · rw [if_neg hm] at h
      simp only [Except.map, Prod.mk.injEq] at h
      obtain ⟨h1, h2⟩ := h
      exact ⟨h1.symm, by simpa using h2.symm, by simpa using hm⟩
  | getMetadataOp =>
    rw [callOp, fileGetMetadata_empty hq] at h
    by_cases hm : s.member (s.getFile fid).bucketName (s.getFile fid).name
      = true
    · rw [if_pos hm] at h
      simp [Except.map] at h
    · rw [if_neg hm] at h
      simp only [Except.map, Prod.mk.injEq] at h
      obtain ⟨h1, h2⟩ := h
      exact ⟨h1.symm, by simpa using h2.symm, by simpa using hm⟩

/-- A save with an empty fault queue succeeds, makes the object a member
under its own (bucket, name), and rewrites exactly its own heap cell. -/
theorem fileSave_ok {s : Sys} {fid : Nat} (data : String)
    (optMeta : Option JObj)
    (hq : (s.getFile fid).mockQueues.get .saveOp = [])
    (hfid : fid < s.heap.length) :
    (fileSave s fid data optMeta).2 = .ok ()
    ∧ (fileSave s fid data optMeta).1.member (s.getFile fid).bucketName
        (s.getFile fid).name = true
    ∧ (fileSave s fid data optMeta).1.getFile fid
        = { s.getFile fid with
            metadata := optMeta.getD (s.getFile fid).metadata
            contents := data } := by
  rw [fileSave_empty hq]
  refine ⟨rfl, ?_, ?_⟩
  · rw [Sys.member_setFile]
    exact markAsExists_member_self s fid
  · exact Sys.getFile_setFile_self _
      (by rw [markAsExists_heap]; exact hfid)

/-! ## Claim theorems -/

/-- C1: for every mockable operation and every prior state of the object,
`mockErrorOnce(op, e)` appends to `op`'s queue only (all other queues,
the file's data, the membership maps and every other file are
unaffected); whenever `op`'s queue is nonempty, the next call to `op`
fails with exactly the head error — unwrapped, in FIFO position — and
consumes that entry while changing nothing else; and when the queue was
empty before the enqueue, the call right after `mockErrorOnce(op, e)`
fails with exactly `e` and returns the system to the original state, so
the immediately following call to `op` proceeds normally. -/
theorem mockErrorOnce_single_shot_fifo
    (s : Sys) (fid : Nat) (op : MockOp) (e : GError) (data : String)
    (optMeta : Option JObj) (md : JObj) (hfid : fid < s.heap.length) :
    (((mockErrorOnce s fid op e).getFile fid).mockQueues.get op
        = (s.getFile fid).mockQueues.get op ++ [e])
    ∧ (∀ op', op' ≠ op →
        ((mockErrorOnce s fid op e).getFile fid).mockQueues.get op'
          = (s.getFile fid).mockQueues.get op')
    ∧ ((mockErrorOnce s fid op e).getFile fid).contents
        = (s.getFile fid).contents
    ∧ ((mockErrorOnce s fid op e).getFile fid).metadata
        = (s.getFile fid).metadata
    ∧ (mockErrorOnce s fid op e).buckets = s.buckets
    ∧ (∀ g, g ≠ fid → (mockErrorOnce s fid op e).getFile g = s.getFile g)
    ∧ (∀ e' rest, (s.getFile fid).mockQueues.get op = e' :: rest →
        callOp s fid op data optMeta md =
          (s.setFile fid { s.getFile fid with
            mockQueues := (s.getFile fid).mockQueues.set op rest },
           .error e'))
    ∧ ((s.getFile fid).mockQueues.get op = [] →
        callOp (mockErrorOnce s fid op e) fid op data optMeta md
          = (s, .error e)) := by
  refine ⟨?_, ?_, ?_, ?_, ?_, ?_, ?_, ?_⟩
  · simp [mockErrorOnce, Sys.getFile_setFile_self _ hfid, Queues.get_set_self]
  · intro op' hne
    simp [mockErrorOnce, Sys.getFile_setFile_self _ hfid,
      Queues.get_set_ne _ _ hne]
  · simp [mockErrorOnce, Sys.getFile_setFile_self _ hfid]
  · simp [mockErrorOnce, Sys.getFile_setFile_self _ hfid]
  · simp [mockErrorOnce, Sys.buckets_setFile]
  · intro g hg
    simp [mockErrorOnce, Sys.getFile_setFile_ne _ hg]
  · intro e' rest h
    exact callOp_inject h
  · intro h
    have hq1 : (mockErrorOnce s fid op e).getFile fid
        = { s.getFile fid with
            mockQueues := (s.getFile fid).mockQueues.set op [e] } := by
      simp [mockErrorOnce, Sys.getFile_setFile_self _ hfid, h]
    have hq2 : ((mockErrorOnce s fid op e).getFile fid).mockQueues.get op
        = e :: [] := by
      rw [hq1]; simp [Queues.get_set_self]
    rw [callOp_inject hq2, hq1]
    simp only [Queues.set_set, mockErrorOnce, Sys.setFile_setFile]
    have hqq : (s.getFile fid).mockQueues.set op [] =
        (s.getFile fid).mockQueues := by
      rw [← h, Queues.set_get_self]
    rw [hqq]
    rw [show ({ s.getFile fid with
          mockQueues := (s.getFile fid).mockQueues } : FileObj)
        = s.getFile fid from rfl]
    rw [Sys.setFile_getFile]

/-- C2: existence follows membership: `exists()` is false on a handle
fresh from a plain `file()` lookup; true right after a fault-free `save`,
after a write-stream close, and on the target of a successful `copy`
(shown here for a fresh destination name); a fault-free `delete` on an
absent object always fails with `NotFound` and changes nothing, while on
a present object it succeeds and the following `exists()` is false. -/
theorem exists_membership_lifecycle :
    (∀ s b n, s.member b n = false →
      fileExists (bucketFile s b n false).1 (bucketFile s b n false).2
        = ((bucketFile s b n false).1, .ok false))
    ∧ (∀ s fid data optMeta, fid < s.heap.length →
      (s.getFile fid).mockQueues.get .saveOp = [] →
      (s.getFile fid).mockQueues.get .existsOp = [] →
      fileExists (fileSave s fid data optMeta).1 fid
        = ((fileSave s fid data optMeta).1, .ok true))
    ∧ (∀ s fid data, fid < s.heap.length →
      (s.getFile fid).mockQueues.get .existsOp = [] →
      fileExists (writeStreamFinish (createWriteStream s fid) fid data) fid
        = (writeStreamFinish (createWriteStream s fid) fid data, .ok true))
    ∧ (∀ s fid n, fid < s.heap.length →
      (s.getFile fid).mockQueues.get .downloadOp = [] →
      (s.getFile fid).mockQueues.get .getMetadataOp = [] →
      s.member (s.getFile fid).bucketName (s.getFile fid).name = true →
      (s.bucketFiles (s.getFile fid).bucketName).lookup n = none →
      (fileCopy s fid (.toName n) none).2
          = .ok (s.heap.length, (s.getFile fid).metadata)
      ∧ fileExists (fileCopy s fid (.toName n) none).1 s.heap.length
          = ((fileCopy s fid (.toName n) none).1, .ok true))
    ∧ (∀ s fid, fid < s.heap.length →
      (s.getFile fid).mockQueues.get .deleteOp = [] →
      (s.getFile fid).mockQueues.get .existsOp = [] →
      s.member (s.getFile fid).bucketName (s.getFile fid).name = true →
      (fileDelete s fid).2 = .ok ()
      ∧ fileExists (fileDelete s fid).1 fid
          = ((fileDelete s fid).1, .ok false))
    ∧ (∀ s fid,
      (s.getFile fid).mockQueues.get .deleteOp = [] →
      s.member (s.getFile fid).bucketName (s.getFile fid).name = false →
      fileDelete s fid
        = (s, .error (.notFound (s.getFile fid).bucketName
            (s.getFile fid).name))) := by
  refine ⟨?_, ?_, ?_, ?_, ?_, ?_⟩
  · intro s b n h
    have hl : (s.bucketFiles b).lookup n = none := by
      cases hx : (s.bucketFiles b).lookup n with
      | none => rfl
      | some w => rw [Sys.member, hx] at h; simp at h
    have hbf : bucketFile s b n false
        = (Sys.mk (s.heap ++ [FileObj.init b n]) s.buckets, s.heap.length) := by
      simp [bucketFile, hl]
    rw [hbf]
    have hgf : (Sys.mk (s.heap ++ [FileObj.init b n]) s.buckets).getFile
        s.heap.length = FileObj.init b n := Sys.getFile_alloc s _
    rw [fileExists_empty (by rw [hgf]; exact Queues.get_empty _), hgf]
    simpa [Sys.member, Sys.bucketFiles, FileObj.init] using h
  · intro s fid data optMeta hfid hqs hqe
    obtain ⟨hok, hmem, hgf⟩ := fileSave_ok data optMeta hqs hfid
    rw [fileExists_empty (by rw [hgf]; exact hqe), hgf]
    rw [show ({ s.getFile fid with
        metadata := optMeta.getD (s.getFile fid).metadata
        contents := data } : FileObj).bucketName
      = (s.getFile fid).bucketName from rfl]
    rw [show ({ s.getFile fid with
        metadata := optMeta.getD (s.getFile fid).metadata
        contents := data } : FileObj).name = (s.getFile fid).name from rfl]
    rw [hmem]
  · intro s fid data hfid hqe
    have hlen : fid < (createWriteStream s fid).heap.length := by
      rw [createWriteStream, markAsExists_heap]
      exact hfid
    have hgf' : (createWriteStream s fid).getFile fid = s.getFile fid := by
      rw [createWriteStream, markAsExists_getFile]
    have hgf : (writeStreamFinish (createWriteStream s fid) fid data).getFile
        fid = { s.getFile fid with contents := data } := by
      simp only [writeStreamFinish]
      rw [Sys.getFile_setFile_self _ hlen, hgf']
    rw [fileExists_empty (by rw [hgf]; exact hqe), hgf]
    rw [show ({ s.getFile fid with contents := data } : FileObj).bucketName
      = (s.getFile fid).bucketName from rfl]
    rw [show ({ s.getFile fid with contents := data } : FileObj).name
      = (s.getFile fid).name from rfl]
    rw [show (writeStreamFinish (createWriteStream s fid) fid data).member
        (s.getFile fid).bucketName (s.getFile fid).name
      = (createWriteStream s fid).member (s.getFile fid).bucketName
        (s.getFile fid).name from rfl]
    rw [createWriteStream, markAsExists_member_self]
  · intro s fid n hfid hdq hgq hmem hdst
    have hdl : fileDownload s fid = (s, .ok (s.getFile fid).contents) := by
      rw [fileDownload_empty hdq, if_pos hmem]
    have hgm : fileGetMetadata s fid = (s, .ok (s.getFile fid).metadata) := by
      rw [fileGetMetadata_empty hgq, if_pos hmem]
    have hbf : bucketFile s (s.getFile fid).bucketName n false
        = (Sys.mk (s.heap ++ [FileObj.init (s.getFile fid).bucketName n])
            s.buckets, s.heap.length) := by
      simp [bucketFile, hdst]
    set s3 : Sys :=
      Sys.mk (s.heap ++ [FileObj.init (s.getFile fid).bucketName n])
        s.buckets with hs3
    have hgf3 : s3.getFile s.heap.length
        = FileObj.init (s.getFile fid).bucketName n := Sys.getFile_alloc s _
    obtain ⟨hok4, hmem4, hgf4⟩ := @fileSave_ok s3 s.heap.length
      (s.getFile fid).contents (some (s.getFile fid).metadata)
      (by rw [hgf3]; exact Queues.get_empty _)
      (by simp [hs3])
    rcases hsv : fileSave s3 s.heap.length (s.getFile fid).contents
        (some (s.getFile fid).metadata) with ⟨s4, r4⟩
    rw [hsv] at hok4 hmem4 hgf4
    simp only at hok4 hmem4 hgf4
    subst hok4
    have hcopy : fileCopy s fid (.toName n) none
        = (s4, .ok (s.heap.length, (s.getFile fid).metadata)) := by
      simp only [fileCopy, copyTarget, hdl, hgm, hbf]
      rw [show jsSpread (s.getFile fid).metadata
          ((none : Option JObj).getD []) = (s.getFile fid).metadata from rfl]
      rw [hsv]
    refine ⟨by rw [hcopy], ?_⟩
    rw [hcopy]
    have hmem4' : s4.member (s.getFile fid).bucketName n = true := by
      simpa [hgf3, FileObj.init] using hmem4
    rw [fileExists_empty (by
      rw [hgf4]
      simp [hgf3, FileObj.init, Queues.get_empty])]
    rw [hgf4]
    simp [hgf3, FileObj.init, hmem4']
  · intro s fid hfid hqd hqe hmem
    have hdel : fileDelete s fid
        = (s.setBucketFiles (s.getFile fid).bucketName
            (jsDelete (s.bucketFiles (s.getFile fid).bucketName)
              (s.getFile fid).name), .ok ()) := by
      rw [fileDelete_empty hqd, if_pos hmem]
    rw [hdel]
    refine ⟨rfl, ?_⟩
    have hgf : (s.setBucketFiles (s.getFile fid).bucketName
        (jsDelete (s.bucketFiles (s.getFile fid).bucketName)
          (s.getFile fid).name)).getFile fid = s.getFile fid := rfl
    rw [fileExists_empty (by rw [hgf]; exact hqe), hgf]
    rw [show (s.setBucketFiles (s.getFile fid).bucketName
        (jsDelete (s.bucketFiles (s.getFile fid).bucketName)
          (s.getFile fid).name)).member (s.getFile fid).bucketName
        (s.getFile fid).name = false by
      simp [Sys.member, Sys.bucketFiles_setBucketFiles_self,
        jsDelete_lookup_self]]
  · intro s fid hqd hmem
    rw [fileDelete_empty hqd, if_neg (by simp [hmem])]

/-- C3: whenever a mockable operation fails — with an injected error or
with `NotFound` — the returned state is exactly the prior state with only
that operation's queue popped: membership maps, every file's contents and
metadata, and all other queues of the called file are unchanged. -/
theorem op_failure_preserves_state (s : Sys) (fid : Nat) (op : MockOp)
    (data : String) (optMeta : Option JObj) (md : JObj) (s' : Sys)
    (e : GError)
    (h : callOp s fid op data optMeta md = (s', .error e)) :
    s' = s.setFile fid (popMock (s.getFile fid) op).2
    ∧ s'.buckets = s.buckets
    ∧ (∀ b n, s'.member b n = s.member b n)
    ∧ (∀ g, (s'.getFile g).contents = (s.getFile g).contents
        ∧ (s'.getFile g).metadata = (s.getFile g).metadata)
    ∧ (∀ op', op' ≠ op →
        (s'.getFile fid).mockQueues.get op'
          = (s.getFile fid).mockQueues.get op') := by
  rcases hq : (s.getFile fid).mockQueues.get op with _ | ⟨e0, rest⟩
  · obtain ⟨h1, he, hm⟩ := callOp_empty_error hq h
    subst h1
    rw [popMock_nil hq]
    exact ⟨(Sys.setFile_getFile _ fid).symm, rfl, fun b n => rfl,
      fun g => ⟨rfl, rfl⟩, fun op' _ => rfl⟩
  · rw [callOp_inject hq] at h
    simp only [Prod.mk.injEq] at h
    obtain ⟨h1, h2⟩ := h
    subst h1
    rw [popMock_cons hq]
    refine ⟨rfl, rfl, fun b n => rfl, ?_, ?_⟩
    · intro g
      by_cases hg : g = fid
      · subst hg
        by_cases hv : g < s.heap.length
        · rw [Sys.getFile_setFile_self _ hv]
          exact ⟨rfl, rfl⟩
        · rw [Sys.setFile_oob _ (Nat.le_of_not_lt hv)]
          exact ⟨rfl, rfl⟩
      · rw [Sys.getFile_setFile_ne _ hg]
        exact ⟨rfl, rfl⟩
    · intro op' hne
      by_cases hv : fid < s.heap.length
      · rw [Sys.getFile_setFile_self _ hv]
        exact Queues.get_set_ne _ _ hne
      · rw [Sys.setFile_oob _ (Nat.le_of_not_lt hv)]

/-- C4: on a present object (no queued fault), `setMetadata` merges: the
stored and returned metadata agrees with the new object on every
top-level key the new object has, keeps the old value on keys only the
old object has, and its custom-metadata sub-mapping is the key-by-key
merge of the two sub-mappings (old-only keys preserved).  Concretely,
`setMetadata({metadata:{a:1}})` then `setMetadata({metadata:{b:2}})`
yields combined custom metadata `{a:1,b:2}`, while a following
`save(data, {metadata:{c:3}})` fully replaces the metadata structure with
`{metadata:{c:3}}`. -/
theorem setMetadata_merges_save_overwrites :
    (∀ s fid md, fid < s.heap.length →
      (s.getFile fid).mockQueues.get .setMetadataOp = [] →
      s.member (s.getFile fid).bucketName (s.getFile fid).name = true →
      (md.map Prod.fst).Nodup →
      ∃ m, fileSetMetadata s fid md
          = (s.setFile fid { s.getFile fid with metadata := m }, .ok m)
        ∧ (∀ k, k ≠ "metadata" →
            m.lookup k = (md.lookup k).or
              ((s.getFile fid).metadata.lookup k))
        ∧ (∃ c, m.lookup "metadata" = some (.jobj c)
            ∧ ∀ k, ((subMeta md).map Prod.fst).Nodup →
                c.lookup k = ((subMeta md).lookup k).or
                  ((subMeta (s.getFile fid).metadata).lookup k)))
    ∧ ((sysMeta2.getFile 0).metadata.lookup "metadata"
        = some (JVal.jobj [("a", 1), ("b", 2)])
      ∧ ((fileSave sysMeta2 0 "x"
            (some [("metadata", JVal.jobj [("c", 3)])])).1.getFile 0).metadata
        = [("metadata", JVal.jobj [("c", 3)])]) := by
  constructor
  · intro s fid md hfid hq hmem hnd
    refine ⟨mergeMetadata (s.getFile fid).metadata md, ?_, ?_, ?_⟩
    · rw [fileSetMetadata_empty hq, if_pos hmem]
    · intro k hk
      simp only [mergeMetadata]
      rw [jsSet_lookup_ne _ _ hk]
      exact jsSpread_lookup _ _ _ hnd
    · refine ⟨jsSpread (subMeta (s.getFile fid).metadata) (subMeta md),
        ?_, ?_⟩
      · simp only [mergeMetadata]
        exact jsSet_lookup_self _ _ _
      · intro k hndc
        exact jsSpread_lookup _ _ _ hndc
  · exact ⟨by decide, by decide⟩

/-- C6: `put(name, contents?, metadata?)` never fails, whatever the prior
bucket state (pending injected errors on the entity previously stored at
that name included): it stores a fresh instance (heap id `s.heap.length`)
as the member at `name`, whose contents are the given contents (or empty),
whose metadata is the default or the `setMetadata`-merge of the given
metadata into the default, and whose fault queues are all empty. -/
theorem put_always_succeeds (s : Sys) (b n : String)
    (contents : Option String) (metadata : Option JObj) :
    (bucketPut s b n contents metadata).2.2 = .ok ()
    ∧ (bucketPut s b n contents metadata).2.1 = s.heap.length
    ∧ ((bucketPut s b n contents metadata).1.bucketFiles b).lookup n
        = some s.heap.length
    ∧ (bucketPut s b n contents metadata).1.getFile s.heap.length
        = { name := n, bucketName := b, contents := contents.getD "",
            metadata := match metadata with
              | none => [("metadata", JVal.jobj [])]
              | some md => mergeMetadata [("metadata", JVal.jobj [])] md,
            mockQueues := Queues.empty } := by
  have hbf1 : ({ s with heap := s.heap ++ [FileObj.init b n] } : Sys).bucketFiles b
      = s.bucketFiles b := rfl
  set s2 : Sys := ({ s with heap := s.heap ++ [FileObj.init b n] } : Sys).setBucketFiles
      b (jsSet (s.bucketFiles b) n s.heap.length) with hs2
  have hgf2 : s2.getFile s.heap.length = FileObj.init b n := by
    rw [hs2, Sys.getFile_setBucketFiles]
    exact Sys.getFile_alloc s _
  have hlen2 : s.heap.length < s2.heap.length := by
    rw [hs2]
    simp [Sys.setBucketFiles]
  have hlk2 : (s2.bucketFiles b).lookup n = some s.heap.length := by
    rw [hs2, Sys.bucketFiles_setBucketFiles_self]
    exact jsSet_lookup_self _ _ _
  have hmem2 : s2.member b n = true := by
    rw [Sys.member, hlk2]
    rfl
  by_cases hc : contents.getD "" = ""
  · cases metadata with
    | none =>
      simp only [bucketPut, hbf1, if_pos hc, ← hs2]
      exact ⟨by trivial, by trivial, hlk2, by rw [hgf2, hc]; rfl⟩
    | some md =>
      simp only [bucketPut, hbf1, if_pos hc, ← hs2]
      rw [fileSetMetadata_empty (by rw [hgf2]; exact Queues.get_empty _),
        if_pos (by rw [hgf2]; exact hmem2)]
      refine ⟨by trivial, by trivial, ?_, ?_⟩
      · exact hlk2
      · rw [Sys.getFile_setFile_self _ hlen2, hgf2, hc]
        rfl
  · cases metadata with
    | none =>
      simp only [bucketPut, hbf1, if_neg hc, ← hs2]
      rw [fileSave_empty (by rw [hgf2]; exact Queues.get_empty _)]
      rw [markAsExists_of_member (by rw [hgf2]; exact hmem2)]
      refine ⟨by trivial, by trivial, ?_, ?_⟩
      · exact hlk2
      · rw [Sys.getFile_setFile_self _ hlen2, hgf2]
        rfl
    | some md =>
      simp only [bucketPut, hbf1, if_neg hc, ← hs2]
      rw [fileSave_empty (by rw [hgf2]; exact Queues.get_empty _)]
      rw [markAsExists_of_member (by rw [hgf2]; exact hmem2)]
      rw [fileSetMetadata_empty (by
        rw [Sys.getFile_setFile_self _ hlen2, hgf2]
        exact Queues.get_empty _)]
      rw [if_pos (by
        rw [Sys.getFile_setFile_self _ hlen2, hgf2]
        exact hmem2)]
      refine ⟨by trivial, by trivial, ?_, ?_⟩
      · rw [Sys.setFile_setFile]
        exact hlk2
      · rw [Sys.setFile_setFile, Sys.getFile_setFile_self _ hlen2,
          Sys.getFile_setFile_self _ hlen2, hgf2]
        rfl

/-- Witness for the C6 theorem applied at a concrete input: `put` on
`sysErr`, whose stored entity at the same name has a pending injected
download error, succeeds and resets the member to fresh state. -/
theorem put_always_succeeds_witness :
    (bucketPut sysErr "b" "f.txt" (some "new") none).2.2 = .ok ()
    ∧ (bucketPut sysErr "b" "f.txt" (some "new") none).2.1
        = sysErr.heap.length
    ∧ ((bucketPut sysErr "b" "f.txt" (some "new") none).1.bucketFiles
        "b").lookup "f.txt" = some sysErr.heap.length
    ∧ (bucketPut sysErr "b" "f.txt" (some "new") none).1.getFile
        sysErr.heap.length
      = { name := "f.txt", bucketName := "b", contents := "new",
          metadata := [("metadata", JVal.jobj [])],
          mockQueues := Queues.empty } :=
  put_always_succeeds sysErr "b" "f.txt" (some "new") none

/-- Witness for the C4 theorem: the general merge clause applied on
`sysOne`'s member file with the metadata object `{x: 7}`. -/
theorem setMetadata_merges_save_overwrites_witness :
    ∃ m, fileSetMetadata sysOne 0 [("x", JVal.jnum 7)]
        = (sysOne.setFile 0 { sysOne.getFile 0 with metadata := m }, .ok m)
      ∧ (∀ k, k ≠ "metadata" →
          m.lookup k = (List.lookup k [("x", JVal.jnum 7)]).or
            ((sysOne.getFile 0).metadata.lookup k))
      ∧ (∃ c, m.lookup "metadata" = some (.jobj c)
          ∧ ∀ k, ((subMeta [("x", JVal.jnum 7)]).map Prod.fst).Nodup →
              c.lookup k = ((subMeta [("x", JVal.jnum 7)]).lookup k).or
                ((subMeta (sysOne.getFile 0).metadata).lookup k)) :=
  setMetadata_merges_save_overwrites.1 sysOne 0 [("x", JVal.jnum 7)]
    (by decide) (by decide) (by decide) (by decide)

/-- C7 (settled against the spec-modelled `bucketDeleteFiles`; the method
is exercised by the repository's tests but absent from src/): bulk delete
removes from the membership mapping exactly the member entries whose name
starts with the filter — a matching name no longer resolves, a
non-matching name resolves as before — an empty or absent filter empties
the mapping, the heap (and so every handle's data) is untouched, the
operation is a total function (it cannot fail, zero matches included),
and over members `test-1`, `test-2`, `nn-test-3`, deleting prefix
`test-` then calling `exists()` yields false, false, true. -/
theorem deleteFiles_removes_matching :
    (∀ s b q n, ((bucketDeleteFiles s b q).bucketFiles b).lookup n
        = if jsStartsWith n (q.getD "") then none
          else (s.bucketFiles b).lookup n)
    ∧ (∀ s b, (bucketDeleteFiles s b none).bucketFiles b = [])
    ∧ (∀ s b q, (bucketDeleteFiles s b q).heap = s.heap)
    ∧ (fileExists (bucketDeleteFiles sysThree "b" (some "test-")) 0
        = (bucketDeleteFiles sysThree "b" (some "test-"), .ok false)
      ∧ fileExists (bucketDeleteFiles sysThree "b" (some "test-")) 1
        = (bucketDeleteFiles sysThree "b" (some "test-"), .ok false)
      ∧ fileExists (bucketDeleteFiles sysThree "b" (some "test-")) 2
        = (bucketDeleteFiles sysThree "b" (some "test-"), .ok true)) := by
  refine ⟨?_, ?_, fun s b q => rfl, by decide, by decide, by decide⟩
  · intro s b q n
    simp only [bucketDeleteFiles]
    rw [Sys.bucketFiles_setBucketFiles_self]
    rw [lookup_filter_key (fun x => !jsStartsWith x (q.getD "")) _ n]
    cases hsw : jsStartsWith n (q.getD "") <;> simp [hsw]
  · intro s b
    simp [bucketDeleteFiles, Sys.bucketFiles_setBucketFiles_self,
      jsStartsWith_empty]

/-- C8: `getFiles` never fails (it is a total function of the state) and
returns exactly the member entries whose name starts with the prefix, in
membership-mapping (insertion) order: with no or empty prefix it returns
all members in order, the result is always an order-preserving sublist of
the members, it contains the id of every member whose name matches and
nothing else; over members `test-1`, `test-2`, `nn-test-3` the prefix
`test-` yields exactly the first two, in insertion order. -/
theorem getFiles_lists_members :
    (∀ s b, bucketGetFiles s b none = (s.bucketFiles b).map (fun e => e.2)
      ∧ bucketGetFiles s b (some "")
        = (s.bucketFiles b).map (fun e => e.2))
    ∧ (∀ s b q, (bucketGetFiles s b q).Sublist
        ((s.bucketFiles b).map fun e => e.2))
    ∧ (∀ s b q n fid, (n, fid) ∈ s.bucketFiles b →
        jsStartsWith n (q.getD "") = true → fid ∈ bucketGetFiles s b q)
    ∧ (∀ s b q fid, fid ∈ bucketGetFiles s b q →
        ∃ n, (n, fid) ∈ s.bucketFiles b
          ∧ jsStartsWith n (q.getD "") = true)
    ∧ (bucketGetFiles sysThree "b" (some "test-") = [0, 1]
      ∧ bucketGetFiles sysThree "b" none = [0, 1, 2]) := by
  refine ⟨?_, ?_, ?_, ?_, by decide, by decide⟩
  · intro s b
    constructor <;>
      simp [bucketGetFiles, jsStartsWith_empty, List.filter_true]
  · intro s b q
    exact ((s.bucketFiles b).filter_sublist).map _
  · intro s b q n fid hm hp
    exact List.mem_map.mpr
      ⟨(n, fid), List.mem_filter.mpr ⟨hm, by simpa using hp⟩, rfl⟩
  · intro s b q fid h
    obtain ⟨e, he, hfe⟩ := List.mem_map.mp h
    obtain ⟨hm, hpba⟩ := List.mem_filter.mp he
    refine ⟨e.1, ?_, by simpa using hpba⟩
    rw [← hfe]
    simpa using hm

/-- Witness for the C8 theorem: the membership clause applied at a
concrete input — `test-1` matches prefix `test-`, so its id appears in
the listing. -/
theorem getFiles_lists_members_witness :
    0 ∈ bucketGetFiles sysThree "b" (some "test-") :=
  getFiles_lists_members.2.2.1 sysThree "b" (some "test-") "test-1" 0
    (by decide) (by decide)

/-- C5: `copy` classifies its destination — a plain string means the same
bucket with the new name, a bucket-like handle means the same name in
that bucket, a file-like handle means that handle's own (bucket, name),
and anything else fails with `Invalid destination type` before touching
any state.  It then performs `download()` and `getMetadata()` on the
source: an absent source fails with the source's `NotFound` and an
enqueued fault on either operation is inherited verbatim, in each case
leaving the destination (indeed everything but the popped queue entry)
untouched.  On success it shallow-merges `options.metadata` over the
fetched metadata at the top level only, stores contents and merged
metadata at the destination via `save` (creating a fresh member or
overwriting an existing one), and returns the new handle together with
the metadata actually stored. -/
theorem copy_classifies_and_stores :
    (∀ s fid n, copyTarget s fid (.toName n)
        = some ((s.getFile fid).bucketName, n))
    ∧ (∀ s fid b, copyTarget s fid (.toBucket b)
        = some (b, (s.getFile fid).name))
    ∧ (∀ s fid g, copyTarget s fid (.toFile g)
        = some ((s.getFile g).bucketName, (s.getFile g).name))
    ∧ (∀ s fid optMeta, fileCopy s fid .invalid optMeta
        = (s, .error .invalidDestination))
    ∧ (∀ s fid dst optMeta tb tn, copyTarget s fid dst = some (tb, tn) →
        (s.getFile fid).mockQueues.get .downloadOp = [] →
        s.member (s.getFile fid).bucketName (s.getFile fid).name = false →
        fileCopy s fid dst optMeta
          = (s, .error (.notFound (s.getFile fid).bucketName
              (s.getFile fid).name)))
    ∧ (∀ s fid dst optMeta tb tn e rest,
        copyTarget s fid dst = some (tb, tn) →
        (s.getFile fid).mockQueues.get .downloadOp = e :: rest →
        fileCopy s fid dst optMeta
          = (s.setFile fid { s.getFile fid with
              mockQueues := (s.getFile fid).mockQueues.set .downloadOp rest },
             .error e))
    ∧ (∀ s fid dst optMeta tb tn e rest,
        copyTarget s fid dst = some (tb, tn) →
        (s.getFile fid).mockQueues.get .downloadOp = [] →
        s.member (s.getFile fid).bucketName (s.getFile fid).name = true →
        (s.getFile fid).mockQueues.get .getMetadataOp = e :: rest →
        fileCopy s fid dst optMeta
          = (s.setFile fid { s.getFile fid with
              mockQueues :=
                (s.getFile fid).mockQueues.set .getMetadataOp rest },
             .error e))
    ∧ (∀ s fid dst optMeta tb tn, copyTarget s fid dst = some (tb, tn) →
        (s.getFile fid).mockQueues.get .downloadOp = [] →
        (s.getFile fid).mockQueues.get .getMetadataOp = [] →
        s.member (s.getFile fid).bucketName (s.getFile fid).name = true →
        (s.bucketFiles tb).lookup tn = none →
        (fileCopy s fid dst optMeta).2
          = .ok (s.heap.length,
              jsSpread (s.getFile fid).metadata (optMeta.getD []))
        ∧ ((fileCopy s fid dst optMeta).1.getFile s.heap.length).contents
          = (s.getFile fid).contents
        ∧ ((fileCopy s fid dst optMeta).1.getFile s.heap.length).metadata
          = jsSpread (s.getFile fid).metadata (optMeta.getD [])
        ∧ ((fileCopy s fid dst optMeta).1.bucketFiles tb).lookup tn
          = some s.heap.length)
    ∧ (∀ s fid dst optMeta tb tn g, copyTarget s fid dst = some (tb, tn) →
        (s.getFile fid).mockQueues.get .downloadOp = [] →
        (s.getFile fid).mockQueues.get .getMetadataOp = [] →
        s.member (s.getFile fid).bucketName (s.getFile fid).name = true →
        (s.bucketFiles tb).lookup tn = some g →
        g < s.heap.length →
        (s.getFile g).bucketName = tb → (s.getFile g).name = tn →
        (s.getFile g).mockQueues.get .saveOp = [] →
        (fileCopy s fid dst optMeta).2
          = .ok (g, jsSpread (s.getFile fid).metadata (optMeta.getD []))
        ∧ ((fileCopy s fid dst optMeta).1.getFile g).contents
          = (s.getFile fid).contents
        ∧ ((fileCopy s fid dst optMeta).1.getFile g).metadata
          = jsSpread (s.getFile fid).metadata (optMeta.getD [])
        ∧ ((fileCopy s fid dst optMeta).1.bucketFiles tb).lookup tn
          = some g)
    ∧ (∀ (md om : JObj) k, (om.map Prod.fst).Nodup →
        (jsSpread md om).lookup k = (om.lookup k).or (md.lookup k)) := by
  refine ⟨fun s fid n => rfl, fun s fid b => rfl, fun s fid g => rfl,
    fun s fid optMeta => rfl, ?_, ?_, ?_, ?_, ?_,
    fun md om k hnd => jsSpread_lookup md om k hnd⟩
  · intro s fid dst optMeta tb tn ht hq1 hmem
    simp only [fileCopy, ht]
    rw [fileDownload_empty hq1, if_neg (by simp [hmem])]
  · intro s fid dst optMeta tb tn e rest ht hq
    simp only [fileCopy, ht]
    rw [fileDownload_inject hq]
  · intro s fid dst optMeta tb tn e rest ht hq1 hmem hq4
    have hdl : fileDownload s fid = (s, .ok (s.getFile fid).contents) := by
      rw [fileDownload_empty hq1, if_pos hmem]
    simp only [fileCopy, ht, hdl, fileGetMetadata_inject hq4]
  · intro s fid dst optMeta tb tn ht hq1 hq2 hmem hdst
    have hdl : fileDownload s fid = (s, .ok (s.getFile fid).contents) := by
      rw [fileDownload_empty hq1, if_pos hmem]
    have hgm : fileGetMetadata s fid
        = (s, .ok (s.getFile fid).metadata) := by
      rw [fileGetMetadata_empty hq2, if_pos hmem]
    have hbf : bucketFile s tb tn false
        = (Sys.mk (s.heap ++ [FileObj.init tb tn]) s.buckets,
           s.heap.length) := by
      simp [bucketFile, hdst]
    set s3 : Sys := Sys.mk (s.heap ++ [FileObj.init tb tn]) s.buckets
      with hs3
    have hgf3 : s3.getFile s.heap.length = FileObj.init tb tn :=
      Sys.getFile_alloc s _
    have hlen3 : s.heap.length < s3.heap.length := by simp [hs3]
    have hmem3 : s3.member tb tn = false := by
      rw [Sys.member, show s3.bucketFiles tb = s.bucketFiles tb from rfl,
        hdst]
      rfl
    have hmk : markAsExists s3 s.heap.length
        = s3.setBucketFiles tb
            (jsSet (s3.bucketFiles tb) tn s.heap.length) := by
      simp only [markAsExists, hgf3, FileObj.init]
      rw [if_neg (by simp [hmem3])]
    have hsveq : fileSave s3 s.heap.length (s.getFile fid).contents
        (some (jsSpread (s.getFile fid).metadata (optMeta.getD [])))
        = ((markAsExists s3 s.heap.length).setFile s.heap.length
            { s3.getFile s.heap.length with
              metadata := (some (jsSpread (s.getFile fid).metadata
                (optMeta.getD []))).getD (s3.getFile s.heap.length).metadata
              contents := (s.getFile fid).contents },
           .ok ()) :=
      fileSave_empty (by rw [hgf3]; exact Queues.get_empty _)
    have hcopy : fileCopy s fid dst optMeta
        = ((markAsExists s3 s.heap.length).setFile s.heap.length
            { s3.getFile s.heap.length with
              metadata := (some (jsSpread (s.getFile fid).metadata
                (optMeta.getD []))).getD (s3.getFile s.heap.length).metadata
              contents := (s.getFile fid).contents },
           .ok (s.heap.length,
             jsSpread (s.getFile fid).metadata (optMeta.getD []))) := by
      simp only [fileCopy, ht, hdl, hgm, hbf]
      rw [hsveq]
    refine ⟨by rw [hcopy], ?_, ?_, ?_⟩
    · rw [hcopy, Sys.getFile_setFile_self _
        (by rw [markAsExists_heap]; exact hlen3)]
    · rw [hcopy, Sys.getFile_setFile_self _
        (by rw [markAsExists_heap]; exact hlen3)]
      rfl
    · rw [hcopy,
        show ∀ f, ((markAsExists s3 s.heap.length).setFile s.heap.length
          f).bucketFiles tb
          = (markAsExists s3 s.heap.length).bucketFiles tb
          from fun f => rfl,
        hmk, Sys.bucketFiles_setBucketFiles_self]
      exact jsSet_lookup_self _ _ _
  · intro s fid dst optMeta tb tn g ht hq1 hq2 hmem hdst hg hgb hgn hqg
    have hdl : fileDownload s fid = (s, .ok (s.getFile fid).contents) := by
      rw [fileDownload_empty hq1, if_pos hmem]
    have hgm : fileGetMetadata s fid
        = (s, .ok (s.getFile fid).metadata) := by
      rw [fileGetMetadata_empty hq2, if_pos hmem]
    have hbf : bucketFile s tb tn false = (s, g) := by
      simp [bucketFile, hdst]
    have hmemg : s.member (s.getFile g).bucketName (s.getFile g).name
        = true := by
      rw [hgb, hgn, Sys.member, hdst]
      rfl
    have hmk : markAsExists s g = s := markAsExists_of_member hmemg
    have hsveq : fileSave s g (s.getFile fid).contents
        (some (jsSpread (s.getFile fid).metadata (optMeta.getD [])))
        = ((markAsExists s g).setFile g
            { s.getFile g with
              metadata := (some (jsSpread (s.getFile fid).metadata
                (optMeta.getD []))).getD (s.getFile g).metadata
              contents := (s.getFile fid).contents },
           .ok ()) :=
      fileSave_empty hqg
    have hcopy : fileCopy s fid dst optMeta
        = ((markAsExists s g).setFile g
            { s.getFile g with
              metadata := (some (jsSpread (s.getFile fid).metadata
                (optMeta.getD []))).getD (s.getFile g).metadata
              contents := (s.getFile fid).contents },
           .ok (g, jsSpread (s.getFile fid).metadata (optMeta.getD []))) := by
      simp only [fileCopy, ht, hdl, hgm, hbf]
      rw [hsveq]
    refine ⟨by rw [hcopy], ?_, ?_, ?_⟩
    · rw [hcopy, hmk, Sys.getFile_setFile_self _ hg]
    · rw [hcopy, hmk, Sys.getFile_setFile_self _ hg]
      rfl
    · rw [hcopy, hmk,
        show ∀ f, ((s.setFile g f).bucketFiles tb)
          = s.bucketFiles tb from fun f => rfl]
      exact hdst

/-- Witness for the C5 theorem: the inherited-fault clause on `sysErr`
(queued download error) and the fresh-destination success clause on
`sysOne`, each with every hypothesis discharged concretely. -/
theorem copy_classifies_and_stores_witness :
    (fileCopy sysErr 0 (.toName "c") none
      = (sysErr.setFile 0 { sysErr.getFile 0 with
          mockQueues := (sysErr.getFile 0).mockQueues.set .downloadOp [] },
         .error (.injected 3)))
    ∧ ((fileCopy sysOne 0 (.toName "c.txt") none).2
        = .ok (sysOne.heap.length,
            jsSpread (sysOne.getFile 0).metadata
              ((none : Option JObj).getD []))
      ∧ ((fileCopy sysOne 0 (.toName "c.txt") none).1.getFile
          sysOne.heap.length).contents = (sysOne.getFile 0).contents
      ∧ ((fileCopy sysOne 0 (.toName "c.txt") none).1.getFile
          sysOne.heap.length).metadata
        = jsSpread (sysOne.getFile 0).metadata ((none : Option JObj).getD [])
      ∧ ((fileCopy sysOne 0 (.toName "c.txt") none).1.bucketFiles
          "b").lookup "c.txt" = some sysOne.heap.length) :=
  ⟨copy_classifies_and_stores.2.2.2.2.2.1 sysErr 0 (.toName "c") none
      "b" "c" (.injected 3) [] (by decide) (by decide),
   copy_classifies_and_stores.2.2.2.2.2.2.2.1 sysOne 0 (.toName "c.txt")
      none "b" "c.txt" (by decide) (by decide) (by decide) (by decide)
      (by decide)⟩

/-- C10: existence is decided by name lookup in the bucket's `files`
mapping, not by instance identity: after `put(name)` replaces the stored
entity, a previously obtained (now stale) fault-free handle for the same
name still reports `exists() = [true]`, its `download()`/`getMetadata()`
succeed and return the stale instance's own contents and metadata — not
the fresh member's, which holds empty contents and default metadata — and
its `delete()` succeeds and removes the current member from the
mapping. -/
theorem stale_handle_after_put (s : Sys) (b n : String) (fid : Nat)
    (hfid : fid < s.heap.length)
    (hbn : (s.getFile fid).bucketName = b)
    (hname : (s.getFile fid).name = n)
    (hq : (s.getFile fid).mockQueues = Queues.empty) :
    fileExists (bucketPut s b n none none).1 fid
      = ((bucketPut s b n none none).1, .ok true)
    ∧ fileDownload (bucketPut s b n none none).1 fid
      = ((bucketPut s b n none none).1, .ok (s.getFile fid).contents)
    ∧ fileGetMetadata (bucketPut s b n none none).1 fid
      = ((bucketPut s b n none none).1, .ok (s.getFile fid).metadata)
    ∧ ((bucketPut s b n none none).1.getFile s.heap.length).contents = ""
    ∧ ((bucketPut s b n none none).1.getFile s.heap.length).metadata
      = [("metadata", JVal.jobj [])]
    ∧ (fileDelete (bucketPut s b n none none).1 fid).2 = .ok ()
    ∧ (((fileDelete (bucketPut s b n none none).1 fid).1.bucketFiles
        b).lookup n) = none := by
  have hput : (bucketPut s b n none none).1
      = (Sys.mk (s.heap ++ [FileObj.init b n]) s.buckets).setBucketFiles b
          (jsSet (s.bucketFiles b) n s.heap.length) := by
    simp only [bucketPut]
    rfl
  have hgf : (bucketPut s b n none none).1.getFile fid = s.getFile fid := by
    rw [hput, Sys.getFile_setBucketFiles]
    exact Sys.getFile_append_lt _ hfid
  have hgfNew : (bucketPut s b n none none).1.getFile s.heap.length
      = FileObj.init b n := by
    rw [hput, Sys.getFile_setBucketFiles]
    exact Sys.getFile_alloc s _
  have hmem : (bucketPut s b n none none).1.member b n = true := by
    rw [hput, Sys.member, Sys.bucketFiles_setBucketFiles_self]
    simp [jsSet_lookup_self]
  refine ⟨?_, ?_, ?_, ?_, ?_, ?_, ?_⟩
  · rw [fileExists_empty (by rw [hgf, hq]; exact Queues.get_empty _),
      hgf, hbn, hname, hmem]
  · rw [fileDownload_empty (by rw [hgf, hq]; exact Queues.get_empty _),
      hgf, hbn, hname, if_pos hmem]
  · rw [fileGetMetadata_empty (by rw [hgf, hq]; exact Queues.get_empty _),
      hgf, hbn, hname, if_pos hmem]
  · rw [hgfNew]
    rfl
  · rw [hgfNew]
    rfl
  · rw [fileDelete_empty (by rw [hgf, hq]; exact Queues.get_empty _),
      hgf, hbn, hname, if_pos hmem]
  · rw [fileDelete_empty (by rw [hgf, hq]; exact Queues.get_empty _),
      hgf, hbn, hname, if_pos hmem]
    simp only [Sys.bucketFiles_setBucketFiles_self]
    exact jsDelete_lookup_self _ _

/-- Witness for the C10 theorem: on `sysOne`, `put('f.txt')` replaces the
member (fresh id 1); the stale handle 0 still sees itself as existing,
downloads its own contents `hello`, and deletes the current member. -/
theorem stale_handle_after_put_witness :
    fileExists (bucketPut sysOne "b" "f.txt" none none).1 0
      = ((bucketPut sysOne "b" "f.txt" none none).1, .ok true)
    ∧ fileDownload (bucketPut sysOne "b" "f.txt" none none).1 0
      = ((bucketPut sysOne "b" "f.txt" none none).1,
         .ok (sysOne.getFile 0).contents)
    ∧ fileGetMetadata (bucketPut sysOne "b" "f.txt" none none).1 0
      = ((bucketPut sysOne "b" "f.txt" none none).1,
         .ok (sysOne.getFile 0).metadata)
    ∧ ((bucketPut sysOne "b" "f.txt" none none).1.getFile
        sysOne.heap.length).contents = ""
    ∧ ((bucketPut sysOne "b" "f.txt" none none).1.getFile
        sysOne.heap.length).metadata = [("metadata", JVal.jobj [])]
    ∧ (fileDelete (bucketPut sysOne "b" "f.txt" none none).1 0).2 = .ok ()
    ∧ (((fileDelete (bucketPut sysOne "b" "f.txt" none none).1 0).1.bucketFiles
        "b").lookup "f.txt") = none :=
  stale_handle_after_put sysOne "b" "f.txt" 0 (by decide) (by decide)
    (by decide) (by decide)

/-- Counterexample to C9 as stated: on a fresh bucket, two successive
`file('a')` lookups return two different instances (heap ids 0 and 1),
and a `mockErrorOnce('exists', e)` on the first handle does not affect
the second handle's behaviour — the non-member handle is neither cached
nor identity-stable, and the fault queues are not shared. -/
theorem file_lookup_not_cached_counterexample :
    (bucketFile sysB "b" "a" false).2
      ≠ (bucketFile (bucketFile sysB "b" "a" false).1 "b" "a" false).2
    ∧ (fileExists
        (bucketFile
          (mockErrorOnce (bucketFile sysB "b" "a" false).1
            (bucketFile sysB "b" "a" false).2 .existsOp (.injected 9))
          "b" "a" false).1
        (bucketFile
          (mockErrorOnce (bucketFile sysB "b" "a" false).1
            (bucketFile sysB "b" "a" false).2 .existsOp (.injected 9))
          "b" "a" false).2).2
      = .ok false := by
  exact ⟨by decide, by decide⟩

/-- C9 (amended): the registry is idempotent and identity-stable —
`bucket(name)` creates the bucket on first access and later calls return
it without modifying the registry; within a bucket, `file(name)` returns
the one stored member instance whenever `name` is a member (the state is
untouched, so the entity — its fault queues and data included — is
shared), but a non-member `file(name)` lookup is NOT cached: it
constructs and returns a fresh instance on every call, so two successive
lookups of an absent name yield two distinct heap entities. -/
theorem handle_resolution_amended :
    (∀ s n, ((storageBucket s n).buckets.lookup n).isSome = true)
    ∧ (∀ s n, storageBucket (storageBucket s n) n = storageBucket s n)
    ∧ (∀ s n, (s.buckets.lookup n).isSome = true → storageBucket s n = s)
    ∧ (∀ s b n fid, (s.bucketFiles b).lookup n = some fid →
        bucketFile s b n false = (s, fid))
    ∧ (∀ s b n, (s.bucketFiles b).lookup n = none →
        bucketFile s b n false
          = (Sys.mk (s.heap ++ [FileObj.init b n]) s.buckets,
             s.heap.length))
    ∧ (∀ s b n, (s.bucketFiles b).lookup n = none →
        (bucketFile (bucketFile s b n false).1 b n false).2
          = s.heap.length + 1
        ∧ (bucketFile s b n false).2 = s.heap.length) := by
  refine ⟨storageBucket_lookup_isSome, ?_, ?_, ?_, ?_, ?_⟩
  · intro s n
    conv_lhs => rw [storageBucket]
    rw [if_pos (storageBucket_lookup_isSome s n)]
  · intro s n h
    rw [storageBucket, if_pos h]
  · intro s b n fid h
    simp [bucketFile, h]
  · intro s b n h
    simp [bucketFile, h]
  · intro s b n h
    have h1 : ((bucketFile s b n false).1.bucketFiles b).lookup n = none := by
      rw [show (bucketFile s b n false).1
          = Sys.mk (s.heap ++ [FileObj.init b n]) s.buckets by
        simp [bucketFile, h]]
      exact h
    constructor
    · rw [show (bucketFile s b n false).1
          = Sys.mk (s.heap ++ [FileObj.init b n]) s.buckets by
        simp [bucketFile, h]] at h1 ⊢
      simp [bucketFile, h1]
    · simp [bucketFile, h]

/-- Witness for the amended C9 theorem: on `sysOne`, whose name `f.txt`
is a member stored at heap id 0, `file('f.txt')` returns the cached
entity 0 and leaves the state unchanged; and on the fresh name `a`, two
lookups return ids 1 and 2. -/
theorem handle_resolution_amended_witness :
    bucketFile sysOne "b" "f.txt" false = (sysOne, 0)
    ∧ ((bucketFile (bucketFile sysOne "b" "a" false).1 "b" "a" false).2
        = sysOne.heap.length + 1
      ∧ (bucketFile sysOne "b" "a" false).2 = sysOne.heap.length) :=
  ⟨handle_resolution_amended.2.2.2.1 sysOne "b" "f.txt" 0 (by decide),
   handle_resolution_amended.2.2.2.2.2 sysOne "b" "a" (by decide)⟩

/-- Witness for the C3 theorem: a queued download error on `sysOne`'s
member file makes `download()` fail while leaving the membership maps
unchanged. -/
theorem op_failure_preserves_state_witness :
    (callOp sysErr 0 .downloadOp "" none []).1.buckets = sysErr.buckets :=
  (op_failure_preserves_state sysErr 0 .downloadOp "" none []
    (callOp sysErr 0 .downloadOp "" none []).1 (.injected 3) (by rfl)).2.1

/-- Witness for the C2 theorem: every conjunct applied at concrete
states — a never-saved handle, `sysOne`'s member file, a write stream, a
copy to a fresh name, and deletes on a present and an absent object. -/
theorem exists_membership_lifecycle_witness :
    (fileExists (bucketFile sysB "b" "x" false).1
        (bucketFile sysB "b" "x" false).2
      = ((bucketFile sysB "b" "x" false).1, .ok false))
    ∧ (fileExists (fileSave sysOne 0 "d" none).1 0
      = ((fileSave sysOne 0 "d" none).1, .ok true))
    ∧ (fileExists (writeStreamFinish (createWriteStream sysOne 0) 0 "w") 0
      = (writeStreamFinish (createWriteStream sysOne 0) 0 "w", .ok true))
    ∧ ((fileCopy sysOne 0 (.toName "c.txt") none).2
        = .ok (sysOne.heap.length, (sysOne.getFile 0).metadata)
      ∧ fileExists (fileCopy sysOne 0 (.toName "c.txt") none).1
          sysOne.heap.length
        = ((fileCopy sysOne 0 (.toName "c.txt") none).1, .ok true))
    ∧ ((fileDelete sysOne 0).2 = .ok ()
      ∧ fileExists (fileDelete sysOne 0).1 0
        = ((fileDelete sysOne 0).1, .ok false))
    ∧ (fileDelete (bucketFile sysB "b" "x" false).1 0
      = ((bucketFile sysB "b" "x" false).1,
         .error (.notFound "b" "x"))) :=
  ⟨exists_membership_lifecycle.1 sysB "b" "x" (by decide),
   exists_membership_lifecycle.2.1 sysOne 0 "d" none (by decide) (by decide)
     (by decide),
   exists_membership_lifecycle.2.2.1 sysOne 0 "w" (by decide) (by decide),
   exists_membership_lifecycle.2.2.2.1 sysOne 0 "c.txt" (by decide)
     (by decide) (by decide) (by decide) (by decide),
   exists_membership_lifecycle.2.2.2.2.1 sysOne 0 (by decide) (by decide)
     (by decide) (by decide),
   exists_membership_lifecycle.2.2.2.2.2 (bucketFile sysB "b" "x" false).1 0
     (by decide) (by decide)⟩

/-- Witness for the C1 theorem at a concrete input: on `sysOne` (one
member file, heap id 0), enqueueing one save error on an empty queue
makes the next save fail with exactly that error and hands back the
original state. -/
theorem mockErrorOnce_single_shot_fifo_witness :
    callOp (mockErrorOnce sysOne 0 .saveOp (.injected 5)) 0 .saveOp "d" none []
      = (sysOne, .error (.injected 5)) :=
  (mockErrorOnce_single_shot_fifo sysOne 0 .saveOp (.injected 5) "d" none []
    (by decide)).2.2.2.2.2.2.2 (by decide)

end MockGcs
